import Mathlib

/-!
Verification of the Torque accounting parser (`job.py`).

The Python source is shallowly embedded as executable Lean definitions:

* accounting-line entries (`entry = line.split(';')`) become `List String`;
  `main` stores an integer epoch timestamp in `entry[0]`, which we render as
  its decimal string, since no claim depends on timestamp arithmetic;
* Python values that may be either `int` or `str` (fields initialised to an
  `int` and later overwritten with a parsed string) are modelled by `PyVal`;
* Python `dict`s (insertion ordered; assignment to an existing key keeps its
  position, new keys are appended) become association lists with `dictSet`;
* exceptions become an `Option PErr` component of the result: `Job.parse`
  catches the header `IndexError` itself (as in the source) while the slot
  index `IndexError` and the `int()` / `hms2sec` `ValueError`s propagate,
  with the partially mutated record returned alongside the error, exactly
  as Python leaves the object mutated when an exception escapes a method.
-/

/-- Python `str.isspace` / `re` whitespace, restricted to the ASCII range
(the accounting format never contains non-ASCII whitespace). -/
def isPyWS (c : Char) : Bool :=
  c == ' ' || c == '\t' || c == '\n' || c == '\r' || c == '\x0b' || c == '\x0c'

/-- A Python value that is either an `int` or a `str`. -/
inductive PyVal where
  | pstr : String → PyVal
  | pint : Int → PyVal
deriving DecidableEq, Repr

/-- The two exception kinds that can escape `Job.parse` / `Job.update`. -/
inductive PErr where
  | indexError
  | valueError
deriving DecidableEq, Repr

/-- Lookup in an insertion-ordered dictionary (`d.get(k)` / `d[k]`). -/
def dictGet? {α : Type} : List (String × α) → String → Option α
  | [], _ => none
  | p :: rest, k => if p.1 = k then some p.2 else dictGet? rest k

/-- `d.get(k, v₀)`. -/
def dictGetD {α : Type} (d : List (String × α)) (k : String) (v₀ : α) : α :=
  (dictGet? d k).getD v₀

/-- `d[k] = v`: overwrite the first occurrence of `k` in place, or append.
All dictionaries built by the program have unique keys, so this is exactly
Python's ordered-`dict` assignment. -/
def dictSet {α : Type} : List (String × α) → String → α → List (String × α)
  | [], k, v => [(k, v)]
  | p :: rest, k, v => if p.1 = k then (k, v) :: rest else p :: dictSet rest k v

/-- Split a character list at every separator character, keeping empty
segments — Python `re.split('[/+]', s)` / `str.split(':')` semantics
(`""` yields `[""]`). -/
def splitChars (p : Char → Bool) : List Char → List Char → List String
  | [], acc => [String.mk acc.reverse]
  | c :: rest, acc =>
    if p c then String.mk acc.reverse :: splitChars p rest []
    else splitChars p rest (c :: acc)

/-- Python `str.rstrip()` (trailing whitespace removed). -/
def pyRstripWS (s : String) : String :=
  String.mk (s.data.reverse.dropWhile isPyWS).reverse

/-- Python `str.rstrip('kb')`: strip any trailing run of the characters
`'k'` and `'b'` (the unit suffix of `resources_used.mem`). -/
def rstripKB (s : String) : String :=
  String.mk (s.data.reverse.dropWhile (fun c => c == 'k' || c == 'b')).reverse

/-- Helper for `pyInt?`: value of a non-empty all-digit character list. -/
def digitsVal (ds : List Char) : Option Int :=
  if ds.isEmpty then none
  else if ds.all (fun c => c.isDigit) then
    some (Int.ofNat (ds.foldl (fun a c => a * 10 + (c.toNat - 48)) 0))
  else none

/-- Python `int(s)` on a string: strip surrounding whitespace, optional
sign, then decimal digits; anything else raises `ValueError` (`none`).
(Underscore digit separators and non-ASCII digits, which Python would also
accept, never occur in accounting data and are not modelled.) -/
def pyInt? (s : String) : Option Int :=
  let t1 := s.data.dropWhile isPyWS
  let t := (t1.reverse.dropWhile isPyWS).reverse
  match t with
  | [] => none
  | '+' :: ds => digitsVal ds
  | '-' :: ds => (digitsVal ds).map (fun n => -n)
  | ds => digitsVal ds

/-- Summation loop of `hms2sec`: `sum(int(x) * 60 ** i for i, x in
enumerate(reversed(hms.split(':'))))`; the first failing `int` raises. -/
def hmsGo : List String → Nat → Option Int
  | [], _ => some 0
  | x :: xs, i =>
    match pyInt? x, hmsGo xs (i + 1) with
    | some v, some rest => some (v * (60 : Int) ^ i + rest)
    | _, _ => none

/-- `hms2sec` (job.py line 180): converts `H*:MM:SS` into seconds; a
component that `int()` cannot parse raises `ValueError` (`none`). -/
def hms2sec (hms : String) : Option Int :=
  hmsGo ((splitChars (fun c => c == ':') hms.data []).reverse) 0

/-- Maximal runs of characters of equal whitespace-class (used to model the
non-overlapping scan of `re.findall` / `re.split`). -/
def groupRuns : List Char → List (List Char)
  | [] => []
  | c :: rest =>
    match groupRuns rest with
    | [] => [[c]]
    | (d :: ds) :: rs =>
      if isPyWS c = isPyWS d then (c :: d :: ds) :: rs
      else [c] :: (d :: ds) :: rs
    | [] :: rs => [[c]] ++ rs

/-- The prefix of a run up to (and including) its last `'='`. -/
def upToLastEq (run : List Char) : List Char :=
  (run.reverse.dropWhile (fun c => c != '=')).reverse

/-- Simultaneous `re.findall(r"\S*=", m)` and `re.split(r"\S*=", m)`.
A match of `\S*=` is, at each scan position, the longest non-whitespace
prefix ending in `'='`; hence within each maximal non-whitespace run the
single candidate match runs from the start of the run to its last `'='`.
The fold walks the runs: a run containing `'='` emits the piece collected
so far and the match, and its remainder past the last `'='` starts the
next piece; every other run is appended to the current piece. -/
def runFold : List (List Char) → List Char → List String × List String
  | [], acc => ([], [String.mk acc])
  | r :: rs, acc =>
    if r.contains '=' then
      let m := upToLastEq r
      let res := runFold rs (r.drop m.length)
      (String.mk m :: res.1, String.mk acc :: res.2)
    else
      runFold rs (acc ++ r)

/-- `jobdict` construction of `Job.parse` (job.py lines 90-104):
`props`/`vals` from the regexp scan, empty strings filtered out, the
trailing `'='` of each property removed, values right-stripped, then
`dict(zip(prop, val))`. -/
def mkJobdict (message : String) : List (String × String) :=
  let scanned := runFold (groupRuns message.data) []
  let props := scanned.1.filter (fun x => x != "")
  let vals := scanned.2.filter (fun x => x != "")
  let prop := props.map (fun i => String.mk i.data.dropLast)
  let val := vals.map pyRstripWS
  (prop.zip val).foldl (fun d p => dictSet d p.1 p.2) []

/-- `re.split('[/+]', nodes)` followed by `filter(None, ...)`
(job.py lines 124-126). -/
def execHostTokens (v : String) : List String :=
  (splitChars (fun c => c == '/' || c == '+') v.data []).filter (fun x => x != "")

/-- Python slice `l[::2]` (even-index elements). -/
def evens : List String → List String
  | [] => []
  | [x] => [x]
  | x :: _ :: rest => x :: evens rest

/-- `collections.Counter` of a list of names: occurrence counts in
first-seen insertion order (job.py line 130). -/
def pyCounter (l : List String) : List (String × Nat) :=
  l.foldl (fun d k => dictSet d k (dictGetD d k 0 + 1)) []

/-- The `maxslot` loop of `Job.parse` (job.py lines 134-138): for each even
index `i`, node name `nodes[2*i]`, the slot token `nodes[2*i+1]` is
`int()`-converted and max-merged into the dictionary.  Accessing a missing
odd token raises `IndexError`; a garbled token raises `ValueError`; either
aborts the loop with the entries updated so far, as in Python. -/
def maxslotLoop : List (String × Int) → List String →
    Except (List (String × Int) × PErr) (List (String × Int))
  | ms, [] => Except.ok ms
  | ms, [_] => Except.error (ms, PErr.indexError)
  | ms, n :: s :: rest =>
    match pyInt? s with
    | none => Except.error (ms, PErr.valueError)
    | some v =>
      maxslotLoop (match dictGet? ms n with
        | some old => dictSet ms n (max old v)
        | none => dictSet ms n v) rest

/-- `jobdict.get(k, 0)` where the default is the integer `0` but a present
value stays a string (job.py lines 108, 115-119). -/
def pyGet0 (d : List (String × String)) (k : String) : PyVal :=
  match dictGet? d k with
  | some v => PyVal.pstr v
  | none => PyVal.pint 0

/-- The `Job` record (job.py lines 31-54) with its `__init__` defaults.
`end` is a Lean keyword, hence the field name `end_`. -/
structure Job where
  timestamp : PyVal := PyVal.pint 0
  jobid : String := ""
  user : String := ""
  group : String := ""
  status : String := ""
  statuslog : List (String × String) := []
  statusstring : String := ""
  exitcode : PyVal := PyVal.pint 0
  owner : String := ""
  queue : String := ""
  ctime : PyVal := PyVal.pint 0
  qtime : PyVal := PyVal.pint 0
  etime : PyVal := PyVal.pint 0
  start : PyVal := PyVal.pint 0
  end_ : PyVal := PyVal.pint 0
  nodes : List (String × Nat) := []
  reqcpus : Int := 0
  reqnodes : Nat := 0
  rucputime : PyVal := PyVal.pstr "00:00:00"
  rumemory : PyVal := PyVal.pstr "0kb"
  ruwalltime : PyVal := PyVal.pstr "00:00:00"
  usage : List (String × Int) := []
  maxslot : List (String × Int) := []
deriving DecidableEq, Repr

/-- `Job()`. -/
def Job.new : Job := {}

/-- Body of `Job.parse` after the header `try` block (job.py lines 90-154).
The five fallible steps (the `maxslot` loop, `int(total_execution_slots)`,
`hms2sec(cput)`, `int(mem.rstrip('kb'))`, `hms2sec(walltime)`) are matched
in source order; on failure the record mutated so far is returned with the
escaping exception.  The final `usage` assignment only happens when
`status == 'E'` (writing `usage := self.usage` otherwise is the identity,
matching Python's skipped assignment). -/
def parseBody (self : Job) (message : String) : Job × Option PErr :=
  let jobdict := mkJobdict message
  let self := { self with
    user := dictGetD jobdict "user" "",
    group := dictGetD jobdict "group" "",
    exitcode := pyGet0 jobdict "Exit_status",
    owner := if self.status = "D" then dictGetD jobdict "requestor" ""
             else dictGetD jobdict "owner" "",
    queue := dictGetD jobdict "queue" "",
    ctime := pyGet0 jobdict "ctime",
    qtime := pyGet0 jobdict "qtime",
    etime := pyGet0 jobdict "etime",
    start := pyGet0 jobdict "start",
    end_ := pyGet0 jobdict "end" }
  let ns := execHostTokens (dictGetD jobdict "exec_host" "")
  let self := { self with nodes := pyCounter (evens ns) }
  match maxslotLoop self.maxslot ns with
  | Except.error pe => ({ self with maxslot := pe.1 }, some pe.2)
  | Except.ok ms =>
    let self := { self with maxslot := ms }
    match (match dictGet? jobdict "total_execution_slots" with
           | none => some (0 : Int)
           | some v => pyInt? v) with
    | none => (self, some PErr.valueError)
    | some rc =>
      let self := { self with reqcpus := rc }
      let self := { self with reqnodes := self.nodes.length }
      match hms2sec (dictGetD jobdict "resources_used.cput" "00:00:00") with
      | none => (self, some PErr.valueError)
      | some cput =>
        let self := { self with rucputime := PyVal.pint cput }
        match pyInt? (rstripKB (dictGetD jobdict "resources_used.mem" "0kb")) with
        | none => (self, some PErr.valueError)
        | some mem =>
          let self := { self with rumemory := PyVal.pint mem }
          match hms2sec (dictGetD jobdict "resources_used.walltime" "00:00:00") with
          | none => (self, some PErr.valueError)
          | some wall =>
            let self := { self with ruwalltime := PyVal.pint wall }
            let self := { self with
              usage := if self.status = "E"
                       then self.nodes.map (fun p => (p.1, (p.2 : Int) * wall))
                       else self.usage }
            (self, none)

/-- `Job.parse` (job.py lines 77-154).  The `try` block assigns
`timestamp`, `status`, `jobid` left to right until the first missing index;
that `IndexError` is caught (`message` stays `''`) and parsing continues. -/
def Job.parse (self : Job) (entry : List String) : Job × Option PErr :=
  match entry with
  | [] => parseBody self ""
  | [t] => parseBody { self with timestamp := PyVal.pstr t } ""
  | [t, s] => parseBody { self with timestamp := PyVal.pstr t, status := s } ""
  | t :: s :: jd :: rest =>
    parseBody { self with timestamp := PyVal.pstr t, status := s, jobid := jd }
      (String.join rest)

/-- `Job.update` (job.py lines 56-75).  `entry[0]` / `entry[1]` are read
before the `statuslog` assignment, so an entry with fewer than two fields
raises `IndexError` without registering anything; afterwards the absorbing
`'E'` check, the started/queued check, and the `parse` call follow in
source order. -/
def Job.update (self : Job) (entry : List String) : Job × Option PErr :=
  match entry with
  | [] => (self, some PErr.indexError)
  | [_] => (self, some PErr.indexError)
  | t :: s :: _ =>
    let self := { self with statuslog := dictSet self.statuslog t s,
                            statusstring := self.statusstring ++ s }
    if self.status = "E" then (self, none)
    else if self.status = "S" ∧ s = "Q" then (self, none)
    else Job.parse self entry

/-- `Counter.update` (job.py line 295): add the counts of `d` into `acc`;
existing keys keep their position, new keys are appended in order. -/
def counterUpdate (acc : List (String × Int)) (d : List (String × Int)) :
    List (String × Int) :=
  d.foldl (fun a p => dictSet a p.1 (dictGetD a p.1 0 + p.2)) acc

/-- Python string `<`: lexicographic comparison by code point. -/
def strLt : List Char → List Char → Bool
  | [], [] => false
  | [], _ :: _ => true
  | _ :: _, [] => false
  | a :: as, b :: bs =>
    if a.toNat < b.toNat then true
    else if b.toNat < a.toNat then false
    else strLt as bs

/-- Insertion step for sorting the node-usage table by node name. -/
def insertByKey (p : String × Int) : List (String × Int) → List (String × Int)
  | [] => [p]
  | q :: rest => if strLt p.1.data q.1.data then p :: q :: rest else q :: insertByKey p rest

/-- `dict(sorted(nodeusage.items(), key=lambda item: item[0]))`
(job.py line 297); keys are unique so stability is irrelevant. -/
def sortByKey (l : List (String × Int)) : List (String × Int) :=
  l.foldr insertByKey []

/-- Node-usage aggregation of `main` (job.py lines 291-297):
`Counter(joblist[0].usage)` — an `IndexError` on an empty job list —
then `update` with every further job's usage, then sort by node name. -/
def nodeusageTable (joblist : List Job) : Except Unit (List (String × Int)) :=
  match joblist with
  | [] => Except.error ()
  | j :: rest =>
    Except.ok (sortByKey (rest.foldl (fun acc i => counterUpdate acc i.usage) j.usage))

/-- Pair up alternating node-name / slot tokens (spec-side helper: the
pairs `(nodes[2*i], nodes[2*i+1])`; a trailing unpaired name is dropped). -/
def toPairs : List String → List (String × String)
  | n :: s :: rest => (n, s) :: toPairs rest
  | _ => []

/-- Keep the first occurrence of each element (spec-side helper). -/
def dedupAux {α : Type} [DecidableEq α] (seen : List α) : List α → List α
  | [] => []
  | a :: r => if a ∈ seen then dedupAux seen r else a :: dedupAux (a :: seen) r

/-- Modelled from the spec wording of §4.1 ("a mapping of node name →
count of **distinct** slots seen for that node"), for comparison with the
code's occurrence counter: count, per node, the distinct (node, slot)
pairs of the exec_host token list. -/
def distinctSlotCounts (v : String) : List (String × Nat) :=
  pyCounter ((dedupAux [] (toPairs (execHostTokens v))).map (fun p => p.1))

/-- Slot values attached to node `n` in an exec_host token list
(spec-side helper; tokens are `int()`-parsed, defaulting to 0, which is
only used under the hypothesis that every parse succeeded). -/
def slotsOf : List String → String → List Int
  | n :: s :: rest, k =>
    (if n = k then [(pyInt? s).getD 0] else []) ++ slotsOf rest k
  | _, _ => []

/-- Maximum of a list of integers, `none` when empty (spec-side helper). -/
def listMax? : List Int → Option Int
  | [] => none
  | x :: xs =>
    match listMax? xs with
    | none => some x
    | some m => some (max x m)

/-- Merge of optional maxima (proof helper). -/
def omax : Option Int → Option Int → Option Int
  | none, b => b
  | some a, none => some a
  | some a, some b => some (max a b)

/-- Exception component of a `maxslotLoop` result (proof helper). -/
def exErr : Except (List (String × Int) × PErr) (List (String × Int)) → Option PErr
  | Except.error pe => some pe.2
  | Except.ok _ => none

/-! ### Dictionary lemmas -/

theorem dictGet?_dictSet_self {α : Type} (d : List (String × α)) (k : String) (v : α) :
    dictGet? (dictSet d k v) k = some v := by
  induction d with
  | nil => simp [dictSet, dictGet?]
  | cons p rest ih =>
    by_cases h : p.1 = k
    · simp [dictSet, dictGet?, h]
    · simp [dictSet, dictGet?, h, ih]

theorem dictGet?_dictSet_ne {α : Type} (d : List (String × α)) (k k2 : String) (v : α)
    (h : k2 ≠ k) : dictGet? (dictSet d k v) k2 = dictGet? d k2 := by
  induction d with
  | nil => simp [dictSet, dictGet?, Ne.symm h]
  | cons p rest ih =>
    by_cases hp : p.1 = k
    · subst hp
      simp [dictSet, dictGet?, Ne.symm h]
    · simp [dictSet, hp, dictGet?, ih]

theorem dictGet?_mapSnd (l : List (String × Nat)) (f : Nat → Int) (k : String) :
    dictGet? (l.map (fun p => (p.1, f p.2))) k = (dictGet? l k).map f := by
  induction l with
  | nil => rfl
  | cons p rest ih =>
    by_cases h : p.1 = k <;> simp [dictGet?, h, ih]

/-! ### C1, C3: frame properties of `Job.update` -/

/-- C1: once a Job record's status is `'E'` (ended), any further
`Job.update` call (with any event) changes only `statuslog` and
`statusstring`; every other field — timestamp, jobid, user, group, status,
exit code, owner, queue, the five timestamps, node mappings, requested
cores/nodes, cpu/memory/wall-time, usage, maxslot — is unchanged, and the
event's payload is never parsed (`Job.parse` is unreachable in this
branch). -/
theorem update_ended_frame (j : Job) (e : List String) (hE : j.status = "E") :
    (j.update e).1.timestamp = j.timestamp ∧
    (j.update e).1.jobid = j.jobid ∧
    (j.update e).1.user = j.user ∧
    (j.update e).1.group = j.group ∧
    (j.update e).1.status = j.status ∧
    (j.update e).1.exitcode = j.exitcode ∧
    (j.update e).1.owner = j.owner ∧
    (j.update e).1.queue = j.queue ∧
    (j.update e).1.ctime = j.ctime ∧
    (j.update e).1.qtime = j.qtime ∧
    (j.update e).1.etime = j.etime ∧
    (j.update e).1.start = j.start ∧
    (j.update e).1.end_ = j.end_ ∧
    (j.update e).1.nodes = j.nodes ∧
    (j.update e).1.reqcpus = j.reqcpus ∧
    (j.update e).1.reqnodes = j.reqnodes ∧
    (j.update e).1.rucputime = j.rucputime ∧
    (j.update e).1.rumemory = j.rumemory ∧
    (j.update e).1.ruwalltime = j.ruwalltime ∧
    (j.update e).1.usage = j.usage ∧
    (j.update e).1.maxslot = j.maxslot := by
  rcases e with _ | ⟨t, _ | ⟨s, rest⟩⟩
  · simp [Job.update]
  · simp [Job.update]
  · simp [Job.update, hE]

/-- C1 witness: a concrete ended record is untouched (beyond the history
fields) by a subsequent queued event. -/
theorem update_ended_frame_witness :
    ({ Job.new with status := "E", user := "alice" } : Job).status = "E" ∧
    (({ Job.new with status := "E", user := "alice" } : Job).update
        ["7", "Q", "x"]).1.user = "alice" := by
  refine ⟨rfl, ?_⟩
  exact (update_ended_frame { Job.new with status := "E", user := "alice" }
    ["7", "Q", "x"] rfl).2.2.1

/-- C3: a record in status `'S'` (started) receiving a `'Q'` (queued) event
records it in `statuslog`/`statusstring` only; every resource field is
untouched and the status stays `'S'`. -/
theorem update_started_queued_frame (j : Job) (e : List String) (hS : j.status = "S")
    (hQ : e.get? 1 = some "Q") :
    (j.update e).1.timestamp = j.timestamp ∧
    (j.update e).1.jobid = j.jobid ∧
    (j.update e).1.user = j.user ∧
    (j.update e).1.group = j.group ∧
    (j.update e).1.status = "S" ∧
    (j.update e).1.exitcode = j.exitcode ∧
    (j.update e).1.owner = j.owner ∧
    (j.update e).1.queue = j.queue ∧
    (j.update e).1.ctime = j.ctime ∧
    (j.update e).1.qtime = j.qtime ∧
    (j.update e).1.etime = j.etime ∧
    (j.update e).1.start = j.start ∧
    (j.update e).1.end_ = j.end_ ∧
    (j.update e).1.nodes = j.nodes ∧
    (j.update e).1.reqcpus = j.reqcpus ∧
    (j.update e).1.reqnodes = j.reqnodes ∧
    (j.update e).1.rucputime = j.rucputime ∧
    (j.update e).1.rumemory = j.rumemory ∧
    (j.update e).1.ruwalltime = j.ruwalltime ∧
    (j.update e).1.usage = j.usage ∧
    (j.update e).1.maxslot = j.maxslot := by
  rcases e with _ | ⟨t, _ | ⟨s, rest⟩⟩
  · simp at hQ
  · simp at hQ
  · have hs : s = "Q" := by simpa using hQ
    subst hs
    simp [Job.update, hS]

/-- C3 witness: a concrete started record ignores a late queued event. -/
theorem update_started_queued_frame_witness :
    ({ Job.new with status := "S", user := "alice" } : Job).status = "S" ∧
    (["9", "Q", "x"] : List String).get? 1 = some "Q" ∧
    (({ Job.new with status := "S", user := "alice" } : Job).update
        ["9", "Q", "x"]).1.user = "alice" ∧
    (({ Job.new with status := "S", user := "alice" } : Job).update
        ["9", "Q", "x"]).1.status = "S" := by
  have h := update_started_queued_frame { Job.new with status := "S", user := "alice" }
    ["9", "Q", "x"] rfl rfl
  exact ⟨rfl, rfl, h.2.2.1, h.2.2.2.2.1⟩

/-! ### C4: `hms2sec` -/

/-- C4 counterexample: on the empty string, `hms2sec` raises `ValueError`
(from `int('')`) instead of returning 0 as the claim states. -/
theorem hms2sec_empty_cex : hms2sec "" = none ∧ hms2sec "" ≠ some 0 := by decide

/-- C4 (amended): `hms2sec` converts well-formed colon-separated durations
as `sum(component[i] * 60^i)` over components from least- to
most-significant — `"01:02:03" → 3723`, `"00:00:00" → 0`, `"01:02" → 62` —
but for malformed input such as `""` it raises a `ValueError` (modelled as
`none`) rather than returning 0. -/
theorem hms2sec_values :
    hms2sec "01:02:03" = some 3723 ∧ hms2sec "00:00:00" = some 0 ∧
    hms2sec "01:02" = some 62 ∧ hms2sec "" = none := by decide

/-! ### `parseBody` structure lemmas -/

/-- `parseBody` never touches the history fields nor the header fields
(`timestamp`, `status`, `jobid` are set by `Job.parse`'s `try` block, not
by the body), in success and error branches alike. -/
theorem parseBody_preserves (a : Job) (m : String) :
    (parseBody a m).1.statuslog = a.statuslog ∧
    (parseBody a m).1.statusstring = a.statusstring ∧
    (parseBody a m).1.status = a.status ∧
    (parseBody a m).1.timestamp = a.timestamp ∧
    (parseBody a m).1.jobid = a.jobid := by
  simp only [parseBody]
  repeat' split
  all_goals simp

/-- Characterisation of a successful `parseBody`: each field of the result
is the value parsed from the message (source lines 106-146), `reqnodes` is
the cardinality of the freshly parsed `nodes`, `maxslot` is the max-merge
of the prior `maxslot` with the entry's slots, and `usage` is recomputed
from `nodes` and the converted wall-time exactly when the status is `'E'`
(and retained otherwise). -/
theorem parseBody_ok (a : Job) (m : String) (r : Job)
    (h : parseBody a m = (r, none)) :
    r.user = dictGetD (mkJobdict m) "user" "" ∧
    r.group = dictGetD (mkJobdict m) "group" "" ∧
    r.exitcode = pyGet0 (mkJobdict m) "Exit_status" ∧
    r.owner = (if a.status = "D" then dictGetD (mkJobdict m) "requestor" ""
               else dictGetD (mkJobdict m) "owner" "") ∧
    r.queue = dictGetD (mkJobdict m) "queue" "" ∧
    r.ctime = pyGet0 (mkJobdict m) "ctime" ∧
    r.qtime = pyGet0 (mkJobdict m) "qtime" ∧
    r.etime = pyGet0 (mkJobdict m) "etime" ∧
    r.start = pyGet0 (mkJobdict m) "start" ∧
    r.end_ = pyGet0 (mkJobdict m) "end" ∧
    r.nodes = pyCounter (evens (execHostTokens (dictGetD (mkJobdict m) "exec_host" ""))) ∧
    maxslotLoop a.maxslot (execHostTokens (dictGetD (mkJobdict m) "exec_host" ""))
      = Except.ok r.maxslot ∧
    (match dictGet? (mkJobdict m) "total_execution_slots" with
     | none => some (0 : Int)
     | some v => pyInt? v) = some r.reqcpus ∧
    r.reqnodes = r.nodes.length ∧
    (∃ c, hms2sec (dictGetD (mkJobdict m) "resources_used.cput" "00:00:00") = some c ∧
      r.rucputime = PyVal.pint c) ∧
    (∃ mem, pyInt? (rstripKB (dictGetD (mkJobdict m) "resources_used.mem" "0kb")) = some mem ∧
      r.rumemory = PyVal.pint mem) ∧
    (∃ w, hms2sec (dictGetD (mkJobdict m) "resources_used.walltime" "00:00:00") = some w ∧
      r.ruwalltime = PyVal.pint w ∧
      r.usage = (if a.status = "E"
                 then r.nodes.map (fun p => (p.1, (p.2 : Int) * w))
                 else a.usage)) := by
  simp only [parseBody] at h
  split at h
  · simp at h
  · split at h
    · simp at h
    · split at h
      · simp at h
      · split at h
        · simp at h
        · split at h
          · simp at h
          · rename_i x4 ms hms x3 rc hrc x2 cput hcput x1 mem hmem x0 wall hwall
            injection h with h1 h2
            subst h1
            exact ⟨rfl, rfl, rfl, rfl, rfl, rfl, rfl, rfl, rfl, rfl, rfl,
              hms, hrc, rfl, ⟨cput, hcput, rfl⟩, ⟨mem, hmem, rfl⟩,
              ⟨wall, hwall, rfl, rfl⟩⟩

/-- Whether (and which) exception the `maxslot` loop raises depends only on
the token list, not on the dictionary being merged into (both branches of
the Python loop body evaluate `int(nodes[2*i+1])`). -/
theorem maxslotLoop_err : ∀ (ns : List String) (ms ms2 : List (String × Int)),
    exErr (maxslotLoop ms ns) = exErr (maxslotLoop ms2 ns)
  | [], _, _ => rfl
  | [_], _, _ => rfl
  | _ :: s :: rest, ms, ms2 => by
    simp only [maxslotLoop]
    cases pyInt? s with
    | none => rfl
    | some v => exact maxslotLoop_err rest _ _

/-- The exception behaviour of `parseBody` depends only on the message. -/
theorem parseBody_err_indep (a b : Job) (m : String) :
    (parseBody a m).2 = (parseBody b m).2 := by
  simp only [parseBody]
  have he := maxslotLoop_err (execHostTokens (dictGetD (mkJobdict m) "exec_host" ""))
    a.maxslot b.maxslot
  cases h1 : maxslotLoop a.maxslot (execHostTokens (dictGetD (mkJobdict m) "exec_host" "")) with
  | error pe =>
    cases h2 : maxslotLoop b.maxslot (execHostTokens (dictGetD (mkJobdict m) "exec_host" "")) with
    | error pe2 =>
      rw [h1, h2] at he
      simpa [exErr] using he
    | ok ms2 =>
      rw [h1, h2] at he
      simp [exErr] at he
  | ok ms =>
    cases h2 : maxslotLoop b.maxslot (execHostTokens (dictGetD (mkJobdict m) "exec_host" "")) with
    | error pe2 =>
      rw [h1, h2] at he
      simp [exErr] at he
    | ok ms2 =>
      cases h3 : (match dictGet? (mkJobdict m) "total_execution_slots" with
                  | none => some (0 : Int)
                  | some v => pyInt? v) with
      | none => rfl
      | some rc =>
        cases h4 : hms2sec (dictGetD (mkJobdict m) "resources_used.cput" "00:00:00") with
        | none => rfl
        | some cput =>
          cases h5 : pyInt? (rstripKB (dictGetD (mkJobdict m) "resources_used.mem" "0kb")) with
          | none => rfl
          | some mem =>
            cases h6 : hms2sec (dictGetD (mkJobdict m) "resources_used.walltime" "00:00:00") with
            | none => rfl
            | some wall => rfl

/-- Two successful `parseBody` runs on the same message from records with
equal statuses agree on every parsed field; `usage` also agrees when the
status is `'E'` (it is then recomputed from the shared `nodes` and
wall-time). -/
theorem parseBody_same_fields (a b : Job) (m : String) (hst : a.status = b.status)
    (ha : (parseBody a m).2 = none) :
    (parseBody b m).2 = none ∧
    (parseBody a m).1.user = (parseBody b m).1.user ∧
    (parseBody a m).1.group = (parseBody b m).1.group ∧
    (parseBody a m).1.exitcode = (parseBody b m).1.exitcode ∧
    (parseBody a m).1.owner = (parseBody b m).1.owner ∧
    (parseBody a m).1.queue = (parseBody b m).1.queue ∧
    (parseBody a m).1.ctime = (parseBody b m).1.ctime ∧
    (parseBody a m).1.qtime = (parseBody b m).1.qtime ∧
    (parseBody a m).1.etime = (parseBody b m).1.etime ∧
    (parseBody a m).1.start = (parseBody b m).1.start ∧
    (parseBody a m).1.end_ = (parseBody b m).1.end_ ∧
    (parseBody a m).1.nodes = (parseBody b m).1.nodes ∧
    (parseBody a m).1.reqcpus = (parseBody b m).1.reqcpus ∧
    (parseBody a m).1.reqnodes = (parseBody b m).1.reqnodes ∧
    (parseBody a m).1.rucputime = (parseBody b m).1.rucputime ∧
    (parseBody a m).1.rumemory = (parseBody b m).1.rumemory ∧
    (parseBody a m).1.ruwalltime = (parseBody b m).1.ruwalltime ∧
    (a.status = "E" → (parseBody a m).1.usage = (parseBody b m).1.usage) := by
  have hb : (parseBody b m).2 = none := (parseBody_err_indep b a m).trans ha
  rcases hA : parseBody a m with ⟨rA, eA⟩
  rcases hB : parseBody b m with ⟨rB, eB⟩
  rw [hA] at ha
  rw [hB] at hb
  simp only at ha hb
  subst ha
  subst hb
  obtain ⟨u1, g1, x1, o1, q1, c1, qt1, e1, s1, en1, n1, ms1, rc1, rn1,
    ⟨cp1, hcp1, hcpv1⟩, ⟨me1, hme1, hmev1⟩, ⟨w1, hw1, hwv1, hu1⟩⟩ :=
    parseBody_ok a m rA hA
  obtain ⟨u2, g2, x2, o2, q2, c2, qt2, e2, s2, en2, n2, ms2, rc2, rn2,
    ⟨cp2, hcp2, hcpv2⟩, ⟨me2, hme2, hmev2⟩, ⟨w2, hw2, hwv2, hu2⟩⟩ :=
    parseBody_ok b m rB hB
  simp only [hA, hB]
  refine ⟨trivial, u1.trans u2.symm, g1.trans g2.symm, x1.trans x2.symm, ?_,
    q1.trans q2.symm, c1.trans c2.symm, qt1.trans qt2.symm, e1.trans e2.symm,
    s1.trans s2.symm, en1.trans en2.symm, n1.trans n2.symm, ?_, ?_, ?_, ?_, ?_, ?_⟩
  · rw [o1, o2, hst]
  · have := rc1.symm.trans rc2
    exact Option.some.inj this
  · rw [rn1, rn2, n1, n2]
  · have hcc : cp1 = cp2 := Option.some.inj (hcp1.symm.trans hcp2)
    rw [hcpv1, hcpv2, hcc]
  · have hmm : me1 = me2 := Option.some.inj (hme1.symm.trans hme2)
    rw [hmev1, hmev2, hmm]
  · have hww : w1 = w2 := Option.some.inj (hw1.symm.trans hw2)
    rw [hwv1, hwv2, hww]
  · intro hsE
    have hww : w1 = w2 := Option.some.inj (hw1.symm.trans hw2)
    rw [hu1, hu2, if_pos hsE, if_pos (hst ▸ hsE), n1, n2, hww]

/-- `Job.parse` never touches the history fields. -/
theorem parse_history_frame (j : Job) (e : List String) :
    (j.parse e).1.statuslog = j.statuslog ∧
    (j.parse e).1.statusstring = j.statusstring := by
  rcases e with _ | ⟨t, _ | ⟨s, _ | ⟨jd, rest⟩⟩⟩
  · exact ⟨(parseBody_preserves j "").1, (parseBody_preserves j "").2.1⟩
  · exact ⟨(parseBody_preserves { j with timestamp := PyVal.pstr t } "").1,
      (parseBody_preserves { j with timestamp := PyVal.pstr t } "").2.1⟩
  · exact ⟨(parseBody_preserves { j with timestamp := PyVal.pstr t, status := s } "").1,
      (parseBody_preserves { j with timestamp := PyVal.pstr t, status := s } "").2.1⟩
  · exact ⟨(parseBody_preserves
        { j with timestamp := PyVal.pstr t, status := s, jobid := jd } (String.join rest)).1,
      (parseBody_preserves
        { j with timestamp := PyVal.pstr t, status := s, jobid := jd } (String.join rest)).2.1⟩

/-- A successful `parseBody` sets `reqnodes` to the cardinality of the
freshly parsed node map. -/
theorem parseBody_reqnodes (a : Job) (m : String) (h : (parseBody a m).2 = none) :
    (parseBody a m).1.reqnodes = (parseBody a m).1.nodes.length := by
  rcases hpe : parseBody a m with ⟨r, err⟩
  rw [hpe] at h
  simp only at h
  subst h
  obtain ⟨-, -, -, -, -, -, -, -, -, -, -, -, -, h14, -⟩ := parseBody_ok a m r hpe
  exact h14

/-- A successful `Job.parse` restores `reqnodes = |nodes|`. -/
theorem parse_reqnodes (j : Job) (e : List String) (h : (j.parse e).2 = none) :
    (j.parse e).1.reqnodes = (j.parse e).1.nodes.length := by
  rcases e with _ | ⟨t, _ | ⟨s, _ | ⟨jd, rest⟩⟩⟩ <;> exact parseBody_reqnodes _ _ h

/-! ### C7: usage computation on ended jobs -/

/-- C7 counterexample: a job can reach status `'E'` through a `Job.parse`
call that aborts with an exception (here, `exec_host=a/0+b` has an odd
token list, so `nodes[2*i+1]` raises an `IndexError`, which `main` catches
before continuing the run); the record then has a node in its allocation
map with no usage entry at all. -/
theorem parse_usage_ended_cex :
    (Job.new.parse ["1", "E", "j1", "exec_host=a/0+b"]).1.status = "E" ∧
    dictGet? (Job.new.parse ["1", "E", "j1", "exec_host=a/0+b"]).1.nodes "b" = some 1 ∧
    dictGet? (Job.new.parse ["1", "E", "j1", "exec_host=a/0+b"]).1.usage "b" = none ∧
    (Job.new.parse ["1", "E", "j1", "exec_host=a/0+b"]).2 = some PErr.indexError := by
  decide

/-- C7 (amended): when a Job record reaches status `'E'` through a
`Job.parse` call that completes without an exception, its usage mapping
satisfies `usage[n] = nodes[n] * walltime_seconds` for every node `n` of
the allocation mapping. -/
theorem parse_usage_of_ended (j : Job) (e : List String) (r : Job)
    (h : j.parse e = (r, none)) (hE : r.status = "E") (w : Int)
    (hw : r.ruwalltime = PyVal.pint w) (n : String) (c : Nat)
    (hc : dictGet? r.nodes n = some c) :
    dictGet? r.usage n = some ((c : Int) * w) := by
  have core : ∀ (a : Job) (m : String), parseBody a m = (r, none) →
      dictGet? r.usage n = some ((c : Int) * w) := by
    intro a m hbody
    have hpres := parseBody_preserves a m
    rw [hbody] at hpres
    have h3 : r.status = a.status := hpres.2.2.1
    have hstat : a.status = "E" := by rw [← h3]; exact hE
    obtain ⟨-, -, -, -, -, -, -, -, -, -, -, -, -, -, -, -,
      ⟨w2, hw2, hwv2, hus2⟩⟩ := parseBody_ok a m r hbody
    have hww : w = w2 := PyVal.pint.inj (hw.symm.trans hwv2)
    rw [hus2, if_pos hstat, dictGet?_mapSnd r.nodes (fun x => (x : Int) * w2) n,
      hc, hww]
    rfl
  rcases e with _ | ⟨t, _ | ⟨s, _ | ⟨jd, rest⟩⟩⟩
  · exact core j "" h
  · exact core { j with timestamp := PyVal.pstr t } "" h
  · exact core { j with timestamp := PyVal.pstr t, status := s } "" h
  · exact core { j with timestamp := PyVal.pstr t, status := s, jobid := jd }
      (String.join rest) h

/-- C7 witness: the spec's example — allocation `nodeA ↦ 2, nodeB ↦ 1` and
measured wall-time 100 s gives usage `nodeA ↦ 200, nodeB ↦ 100`. -/
theorem parse_usage_of_ended_witness :
    dictGet? (Job.new.parse ["100", "E", "j1",
      "exec_host=nodeA/0+nodeA/1+nodeB/0 resources_used.walltime=00:01:40"]).1.usage
      "nodeA" = some 200 ∧
    dictGet? (Job.new.parse ["100", "E", "j1",
      "exec_host=nodeA/0+nodeA/1+nodeB/0 resources_used.walltime=00:01:40"]).1.usage
      "nodeB" = some 100 := by
  have hA := parse_usage_of_ended Job.new ["100", "E", "j1",
      "exec_host=nodeA/0+nodeA/1+nodeB/0 resources_used.walltime=00:01:40"]
      (Job.new.parse ["100", "E", "j1",
        "exec_host=nodeA/0+nodeA/1+nodeB/0 resources_used.walltime=00:01:40"]).1
      (by decide) (by decide) 100 (by decide) "nodeA" 2 (by decide)
  have hB := parse_usage_of_ended Job.new ["100", "E", "j1",
      "exec_host=nodeA/0+nodeA/1+nodeB/0 resources_used.walltime=00:01:40"]
      (Job.new.parse ["100", "E", "j1",
        "exec_host=nodeA/0+nodeA/1+nodeB/0 resources_used.walltime=00:01:40"]).1
      (by decide) (by decide) 100 (by decide) "nodeB" 1 (by decide)
  exact ⟨hA.trans (by decide), hB.trans (by decide)⟩

/-! ### C9: `reqnodes` invariant -/

/-- C9 counterexample: a `Job.update` whose `exec_host` list has a node
name without a slot index raises `IndexError` *after* `self.nodes` has
been overwritten but *before* `self.reqnodes` is assigned; `main` catches
the exception and continues, leaving a record with
`reqnodes ≠ len(nodes)`. -/
theorem reqnodes_card_cex :
    (Job.new.update ["1", "S", "j", "exec_host=a"]).1.reqnodes = 0 ∧
    (Job.new.update ["1", "S", "j", "exec_host=a"]).1.nodes.length = 1 ∧
    (Job.new.update ["1", "S", "j", "exec_host=a"]).2 = some PErr.indexError := by
  decide

/-- C9 (amended): `reqnodes` equals the cardinality of the per-node
allocation mapping after initialisation, and the invariant is preserved by
every `Job.parse` call and every `Job.update` call that completes without
an exception; an aborted call (see the counterexample) can break it. -/
theorem reqnodes_card_amended (j : Job) (e : List String)
    (hinv : j.reqnodes = j.nodes.length) :
    Job.new.reqnodes = Job.new.nodes.length ∧
    ((j.parse e).2 = none → (j.parse e).1.reqnodes = (j.parse e).1.nodes.length) ∧
    ((j.update e).2 = none → (j.update e).1.reqnodes = (j.update e).1.nodes.length) := by
  refine ⟨rfl, fun h => parse_reqnodes j e h, fun h => ?_⟩
  rcases e with _ | ⟨t, _ | ⟨s, rest⟩⟩
  · simp [Job.update] at h
  · simp [Job.update] at h
  · by_cases hE : j.status = "E"
    · simp [Job.update, hE, hinv]
    · by_cases hSQ : j.status = "S" ∧ s = "Q"
      · simp [Job.update, hE, hSQ, hinv]
      · simp only [Job.update, if_neg hE, if_neg hSQ] at h ⊢
        exact parse_reqnodes _ _ h

/-- C9 witness: a successful start event establishes the invariant. -/
theorem reqnodes_card_amended_witness :
    (Job.new.update ["1", "S", "j", "exec_host=a/0+b/0"]).2 = none ∧
    (Job.new.update ["1", "S", "j", "exec_host=a/0+b/0"]).1.reqnodes
      = (Job.new.update ["1", "S", "j", "exec_host=a/0+b/0"]).1.nodes.length := by
  refine ⟨by decide, ?_⟩
  exact (reqnodes_card_amended Job.new ["1", "S", "j", "exec_host=a/0+b/0"] rfl).2.2
    (by decide)

/-! ### C10: status history -/

/-- C10 counterexample: two events carrying the same timestamp — Python
`dict` assignment overwrites the earlier history entry, so the history is
not append-only under timestamp collisions. -/
theorem statuslog_overwrite_cex :
    (Job.new.update ["5", "Q", "j1"]).1.statuslog = [("5", "Q")] ∧
    ((Job.new.update ["5", "Q", "j1"]).1.update ["5", "S", "j1"]).1.statuslog
      = [("5", "S")] ∧
    ("5", "Q") ∉ ((Job.new.update ["5", "Q", "j1"]).1.update ["5", "S", "j1"]).1.statuslog := by
  decide

/-- C10 (amended): every `Job.update` whose entry has at least two fields
records `statuslog[timestamp] = status`, and history entries keyed by a
*different* timestamp are never removed or altered; an event that reuses
an already-recorded timestamp overwrites that entry's status code. -/
theorem statuslog_append_amended (j : Job) (e : List String) (t0 s0 : String)
    (h0 : e.get? 0 = some t0) (h1 : e.get? 1 = some s0) :
    dictGet? (j.update e).1.statuslog t0 = some s0 ∧
    (∀ t s, t ≠ t0 → dictGet? j.statuslog t = some s →
      dictGet? (j.update e).1.statuslog t = some s) := by
  rcases e with _ | ⟨t, _ | ⟨s, rest⟩⟩
  · simp at h0
  · simp at h1
  · obtain rfl : t0 = t := by simpa using h0.symm
    obtain rfl : s0 = s := by simpa using h1.symm
    have hsl : (j.update (t0 :: s0 :: rest)).1.statuslog = dictSet j.statuslog t0 s0 := by
      by_cases hE : j.status = "E"
      · simp [Job.update, hE]
      · by_cases hSQ : j.status = "S" ∧ s0 = "Q"
        · simp [Job.update, hE, hSQ]
        · simp only [Job.update, if_neg hE, if_neg hSQ]
          exact (parse_history_frame
            { j with statuslog := dictSet j.statuslog t0 s0,
                     statusstring := j.statusstring ++ s0 } (t0 :: s0 :: rest)).1
    rw [hsl]
    exact ⟨dictGet?_dictSet_self _ _ _,
      fun t2 s2 hne hmem => (dictGet?_dictSet_ne _ _ _ _ hne).trans hmem⟩

/-- C10 witness: distinct timestamps are appended and preserved. -/
theorem statuslog_append_amended_witness :
    dictGet? ((Job.new.update ["5", "Q", "j1"]).1.update ["6", "S", "j1"]).1.statuslog "6"
      = some "S" ∧
    dictGet? ((Job.new.update ["5", "Q", "j1"]).1.update ["6", "S", "j1"]).1.statuslog "5"
      = some "Q" := by
  have h := statuslog_append_amended (Job.new.update ["5", "Q", "j1"]).1
    ["6", "S", "j1"] "6" "S" rfl rfl
  exact ⟨h.1, h.2 "5" "Q" (by decide) (by decide)⟩

/-! ### C5: entries with fewer than three fields -/

/-- C5 counterexample: a two-field entry makes the `try` block of
`Job.parse` raise (and catch) `IndexError`, but parsing then *continues*
with an empty message, so the resource fields do not retain their prior
values — they are overwritten with the empty payload's defaults (here a
previously recorded `user` is cleared and the node map is emptied). -/
theorem parse_short_entry_cex :
    ((Job.new.update ["1", "S", "j1", "user=bob exec_host=a/0"]).1.parse
      ["2", "R"]).2 = none ∧
    (Job.new.update ["1", "S", "j1", "user=bob exec_host=a/0"]).1.user = "bob" ∧
    ((Job.new.update ["1", "S", "j1", "user=bob exec_host=a/0"]).1.parse
      ["2", "R"]).1.user = "" ∧
    (Job.new.update ["1", "S", "j1", "user=bob exec_host=a/0"]).1.nodes = [("a", 1)] ∧
    ((Job.new.update ["1", "S", "j1", "user=bob exec_host=a/0"]).1.parse
      ["2", "R"]).1.nodes = [] := by
  decide

/-- C5 (amended): on *every* two-field entry, `Job.parse` is non-fatal
(the header `IndexError` is caught) and the status *is* updated to the
incoming code, but instead of retaining its prior field values the record
is overwritten with the empty payload's defaults: string fields cleared,
numeric fields zeroed, `nodes` emptied, `reqcpus`/`reqnodes` zeroed and
the `resources_used` values reset; only `jobid`, the history fields and
`maxslot` are retained, while `usage` is retained for a non-`'E'` incoming
status and overwritten to the empty mapping (computed from the emptied
node map) when the incoming status is `'E'`. -/
theorem parse_short_entry_amended (a : Job) (t s : String) :
    (a.parse [t, s]).2 = none ∧
    (a.parse [t, s]).1.timestamp = PyVal.pstr t ∧
    (a.parse [t, s]).1.status = s ∧
    (a.parse [t, s]).1.jobid = a.jobid ∧
    (a.parse [t, s]).1.user = "" ∧
    (a.parse [t, s]).1.group = "" ∧
    (a.parse [t, s]).1.exitcode = PyVal.pint 0 ∧
    (a.parse [t, s]).1.owner = "" ∧
    (a.parse [t, s]).1.queue = "" ∧
    (a.parse [t, s]).1.ctime = PyVal.pint 0 ∧
    (a.parse [t, s]).1.qtime = PyVal.pint 0 ∧
    (a.parse [t, s]).1.etime = PyVal.pint 0 ∧
    (a.parse [t, s]).1.start = PyVal.pint 0 ∧
    (a.parse [t, s]).1.end_ = PyVal.pint 0 ∧
    (a.parse [t, s]).1.nodes = [] ∧
    (a.parse [t, s]).1.reqcpus = 0 ∧
    (a.parse [t, s]).1.reqnodes = 0 ∧
    (a.parse [t, s]).1.rucputime = PyVal.pint 0 ∧
    (a.parse [t, s]).1.rumemory = PyVal.pint 0 ∧
    (a.parse [t, s]).1.ruwalltime = PyVal.pint 0 ∧
    (a.parse [t, s]).1.statuslog = a.statuslog ∧
    (a.parse [t, s]).1.statusstring = a.statusstring ∧
    (a.parse [t, s]).1.maxslot = a.maxslot ∧
    (a.parse [t, s]).1.usage = (if s = "E" then [] else a.usage) := by
  refine ⟨rfl, rfl, rfl, rfl, rfl, rfl, rfl, ?_, rfl, rfl, rfl, rfl, rfl, rfl,
    rfl, rfl, rfl, rfl, rfl, rfl, rfl, rfl, rfl, rfl⟩
  rw [show (a.parse [t, s]).1.owner
      = (if s = "D" then "" else "") from rfl]
  exact ite_self ""

/-- C5 witness: a record with prior data, hit by a two-field rerun entry
(fields cleared, usage retained) and by a two-field ended entry (fields
cleared, usage emptied). -/
theorem parse_short_entry_amended_witness :
    (({ Job.new with user := "bob", maxslot := [("n", 2)] } : Job).parse
      ["9", "R"]).2 = none ∧
    (({ Job.new with user := "bob", maxslot := [("n", 2)] } : Job).parse
      ["9", "R"]).1.user = "" ∧
    (({ Job.new with user := "bob", maxslot := [("n", 2)] } : Job).parse
      ["9", "R"]).1.status = "R" ∧
    (({ Job.new with user := "bob", maxslot := [("n", 2)] } : Job).parse
      ["9", "R"]).1.usage = [] ∧
    (({ Job.new with user := "bob", usage := [("n", 7)] } : Job).parse
      ["9", "E"]).1.status = "E" ∧
    (({ Job.new with user := "bob", usage := [("n", 7)] } : Job).parse
      ["9", "E"]).1.usage = [] := by
  have h := parse_short_entry_amended
    { Job.new with user := "bob", maxslot := [("n", 2)] } "9" "R"
  have hE := parse_short_entry_amended
    { Job.new with user := "bob", usage := [("n", 7)] } "9" "E"
  refine ⟨h.1, h.2.2.2.2.1, h.2.2.1, ?_, hE.2.2.1, ?_⟩
  · exact (h.2.2.2.2.2.2.2.2.2.2.2.2.2.2.2.2.2.2.2.2.2.2.2).trans (by decide)
  · exact (hE.2.2.2.2.2.2.2.2.2.2.2.2.2.2.2.2.2.2.2.2.2.2.2).trans (by decide)

/-! ### C2: supersession of fields by later events -/

/-- C2 counterexample: `maxslot` is *merged* (per-node maximum with the
prior value), not overwritten, so after a start event with `exec_host=a/5`
a rerun event with `exec_host=a/3` leaves `maxslot = {a: 5}`, while
parsing the latest event alone yields `{a: 3}`. -/
theorem update_supersedes_cex :
    (Job.new.update ["1", "S", "jobA", "exec_host=a/5"]).1.status = "S" ∧
    ((Job.new.update ["1", "S", "jobA", "exec_host=a/5"]).1.update
      ["2", "R", "jobA", "exec_host=a/3"]).1.maxslot = [("a", 5)] ∧
    (Job.new.parse ["2", "R", "jobA", "exec_host=a/3"]).1.maxslot = [("a", 3)] ∧
    ((Job.new.update ["1", "S", "jobA", "exec_host=a/5"]).1.update
      ["2", "R", "jobA", "exec_host=a/3"]).1.maxslot
      ≠ (Job.new.parse ["2", "R", "jobA", "exec_host=a/3"]).1.maxslot := by
  decide

/-- C2 (amended): for a record not in status `'E'`, an incoming event with
at least three fields that is not a queued-after-start event, and a
`Job.update` call that completes without an exception, the resulting
record agrees with the result of parsing the latest event alone on every
field *except* the history fields (`statuslog`/`statusstring`), `maxslot`
(max-merged with prior values, see the counterexample) and `usage` (which
is recomputed — and hence agrees — exactly when the incoming status is
`'E'`, and is retained otherwise). -/
theorem update_supersedes_amended (j : Job) (t s jd : String) (rest : List String)
    (hE : j.status ≠ "E") (hSQ : ¬(j.status = "S" ∧ s = "Q"))
    (h : (j.update (t :: s :: jd :: rest)).2 = none) :
    (Job.new.parse (t :: s :: jd :: rest)).2 = none ∧
    (j.update (t :: s :: jd :: rest)).1.timestamp
      = (Job.new.parse (t :: s :: jd :: rest)).1.timestamp ∧
    (j.update (t :: s :: jd :: rest)).1.status
      = (Job.new.parse (t :: s :: jd :: rest)).1.status ∧
    (j.update (t :: s :: jd :: rest)).1.jobid
      = (Job.new.parse (t :: s :: jd :: rest)).1.jobid ∧
    (j.update (t :: s :: jd :: rest)).1.user
      = (Job.new.parse (t :: s :: jd :: rest)).1.user ∧
    (j.update (t :: s :: jd :: rest)).1.group
      = (Job.new.parse (t :: s :: jd :: rest)).1.group ∧
    (j.update (t :: s :: jd :: rest)).1.exitcode
      = (Job.new.parse (t :: s :: jd :: rest)).1.exitcode ∧
    (j.update (t :: s :: jd :: rest)).1.owner
      = (Job.new.parse (t :: s :: jd :: rest)).1.owner ∧
    (j.update (t :: s :: jd :: rest)).1.queue
      = (Job.new.parse (t :: s :: jd :: rest)).1.queue ∧
    (j.update (t :: s :: jd :: rest)).1.ctime
      = (Job.new.parse (t :: s :: jd :: rest)).1.ctime ∧
    (j.update (t :: s :: jd :: rest)).1.qtime
      = (Job.new.parse (t :: s :: jd :: rest)).1.qtime ∧
    (j.update (t :: s :: jd :: rest)).1.etime
      = (Job.new.parse (t :: s :: jd :: rest)).1.etime ∧
    (j.update (t :: s :: jd :: rest)).1.start
      = (Job.new.parse (t :: s :: jd :: rest)).1.start ∧
    (j.update (t :: s :: jd :: rest)).1.end_
      = (Job.new.parse (t :: s :: jd :: rest)).1.end_ ∧
    (j.update (t :: s :: jd :: rest)).1.nodes
      = (Job.new.parse (t :: s :: jd :: rest)).1.nodes ∧
    (j.update (t :: s :: jd :: rest)).1.reqcpus
      = (Job.new.parse (t :: s :: jd :: rest)).1.reqcpus ∧
    (j.update (t :: s :: jd :: rest)).1.reqnodes
      = (Job.new.parse (t :: s :: jd :: rest)).1.reqnodes ∧
    (j.update (t :: s :: jd :: rest)).1.rucputime
      = (Job.new.parse (t :: s :: jd :: rest)).1.rucputime ∧
    (j.update (t :: s :: jd :: rest)).1.rumemory
      = (Job.new.parse (t :: s :: jd :: rest)).1.rumemory ∧
    (j.update (t :: s :: jd :: rest)).1.ruwalltime
      = (Job.new.parse (t :: s :: jd :: rest)).1.ruwalltime ∧
    (s = "E" → (j.update (t :: s :: jd :: rest)).1.usage
      = (Job.new.parse (t :: s :: jd :: rest)).1.usage) := by
  have hparse : Job.new.parse (t :: s :: jd :: rest)
      = parseBody { Job.new with timestamp := PyVal.pstr t, status := s, jobid := jd }
          (String.join rest) := rfl
  have hred : j.update (t :: s :: jd :: rest)
      = parseBody { j with statuslog := dictSet j.statuslog t s,
                           statusstring := j.statusstring ++ s,
                           timestamp := PyVal.pstr t, status := s, jobid := jd }
          (String.join rest) := by
    simp only [Job.update, if_neg hE, if_neg hSQ, Job.parse]
  rw [hred] at h
  obtain ⟨hb, hu, hg, hx, ho, hq, hc, hqt, het, hst2, hen, hn, hrc, hrn,
    hcp, hme, hwt, hus⟩ :=
    parseBody_same_fields
      { j with statuslog := dictSet j.statuslog t s,
               statusstring := j.statusstring ++ s,
               timestamp := PyVal.pstr t, status := s, jobid := jd }
      { Job.new with timestamp := PyVal.pstr t, status := s, jobid := jd }
      (String.join rest) rfl h
  have pA := parseBody_preserves
      { j with statuslog := dictSet j.statuslog t s,
               statusstring := j.statusstring ++ s,
               timestamp := PyVal.pstr t, status := s, jobid := jd } (String.join rest)
  have pB := parseBody_preserves
      { Job.new with timestamp := PyVal.pstr t, status := s, jobid := jd }
      (String.join rest)
  rw [hred, hparse]
  exact ⟨hb, pA.2.2.2.1.trans pB.2.2.2.1.symm, pA.2.2.1.trans pB.2.2.1.symm,
    pA.2.2.2.2.trans pB.2.2.2.2.symm, hu, hg, hx, ho, hq, hc, hqt, het, hst2,
    hen, hn, hrc, hrn, hcp, hme, hwt, fun hsE => hus (hsE ▸ rfl)⟩

/-- C2 witness: a queued record updated by a start event ends up with the
same parsed fields as parsing the start event alone. -/
theorem update_supersedes_amended_witness :
    ((Job.new.update ["1", "Q", "j9", "user=bob"]).1.update
      ["2", "S", "j9", "user=bob exec_host=n/0"]).1.user
      = (Job.new.parse ["2", "S", "j9", "user=bob exec_host=n/0"]).1.user ∧
    ((Job.new.update ["1", "Q", "j9", "user=bob"]).1.update
      ["2", "S", "j9", "user=bob exec_host=n/0"]).1.nodes
      = (Job.new.parse ["2", "S", "j9", "user=bob exec_host=n/0"]).1.nodes := by
  have h := update_supersedes_amended (Job.new.update ["1", "Q", "j9", "user=bob"]).1
    "2" "S" "j9" ["user=bob exec_host=n/0"] (by decide) (by decide) (by decide)
  exact ⟨h.2.2.2.2.1, h.2.2.2.2.2.2.2.2.2.2.2.2.2.2.1⟩

/-! ### C6: node-usage aggregation -/

/-- C6 counterexample: a non-empty job list in which no job ever reached
`'E'` produces an empty node-usage table (`Except.ok []`), not an
`EmptyResultSet`-style error. -/
theorem nodeusage_empty_table_cex :
    (Job.new.update ["1", "S", "j1", "user=bob"]).1.status = "S" ∧
    nodeusageTable [(Job.new.update ["1", "S", "j1", "user=bob"]).1]
      = Except.ok [] := by
  exact ⟨by decide, rfl⟩

/-- C6 (amended): the node-usage aggregation fails (with the uncaught
`IndexError` of `joblist[0]`) only when the job list itself is empty —
which under the default CLI filter is the case precisely when no `'E'`
line was seen; for a non-empty job list none of whose records carry a
usage mapping (as for jobs that never ended) it silently emits an empty
zero-row table. -/
theorem nodeusageTable_amended (l : List Job) :
    nodeusageTable ([] : List Job) = Except.error () ∧
    (l ≠ [] → (∀ jb ∈ l, jb.usage = []) → nodeusageTable l = Except.ok []) := by
  refine ⟨rfl, ?_⟩
  intro hne hu
  rcases l with _ | ⟨j, rest⟩
  · exact absurd rfl hne
  · have hfold : ∀ (rs : List Job) (acc : List (String × Int)),
        (∀ x ∈ rs, x.usage = ([] : List (String × Int))) →
        rs.foldl (fun acc i => counterUpdate acc i.usage) acc = acc := by
      intro rs
      induction rs with
      | nil => intro acc _; rfl
      | cons x xs ih =>
        intro acc hx
        have hxu : x.usage = [] := hx x (by simp)
        simp only [List.foldl_cons, hxu]
        exact ih _ (fun y hy => hx y (by simp [hy]))
    have hj : j.usage = [] := hu j (by simp)
    simp only [nodeusageTable, hj]
    rw [hfold rest [] (fun y hy => hu y (by simp [hy]))]
    rfl

/-- C6 witness: a singleton list holding a never-ended job. -/
theorem nodeusageTable_amended_witness :
    nodeusageTable [{ Job.new with status := "R" }] = Except.ok [] := by
  exact (nodeusageTable_amended [{ Job.new with status := "R" }]).2 (by simp)
    (by intro jb hjb; simp at hjb; subst hjb; rfl)

/-! ### C8: exec_host grouping -/

theorem omax_none_right (x : Option Int) : omax x none = x := by
  cases x <;> rfl

theorem omax_assoc (x y z : Option Int) :
    omax (omax x y) z = omax x (omax y z) := by
  cases x <;> cases y <;> cases z <;> simp [omax, max_assoc]

theorem listMax?_cons (v : Int) (l : List Int) :
    listMax? (v :: l) = omax (some v) (listMax? l) := by
  cases h : listMax? l <;> simp [listMax?, omax, h]

/-- Lookup in the `Counter` fold: the count of `n`, added to whatever the
starting dictionary already holds. -/
theorem dictGet?_counterFrom (l : List String) :
    ∀ (d : List (String × Nat)) (n : String),
    dictGet? (l.foldl (fun d k => dictSet d k (dictGetD d k 0 + 1)) d) n =
      (match dictGet? d n with
       | some c => some (c + l.count n)
       | none => if l.count n = 0 then none else some (l.count n)) := by
  induction l with
  | nil =>
    intro d n
    cases h : dictGet? d n <;> simp [h]
  | cons a t ih =>
    intro d n
    simp only [List.foldl_cons]
    rw [ih]
    by_cases han : a = n
    · subst han
      rw [dictGet?_dictSet_self]
      cases h : dictGet? d a with
      | none => simp [dictGetD, h, List.count_cons, Nat.add_comm]
      | some c =>
        simp only [dictGetD, h, Option.getD_some, List.count_cons, beq_self_eq_true,
          if_true, Option.some.injEq]
        omega
    · rw [dictGet?_dictSet_ne _ _ _ _ (Ne.symm han)]
      cases h : dictGet? d n <;> simp [h, List.count_cons, han]

/-- Lookup after the `maxslot` loop: the prior value max-merged with the
maximum of the slot values attached to the node in this entry. -/
theorem maxslotLoop_lookup : ∀ (ns : List String) (ms res : List (String × Int)),
    maxslotLoop ms ns = Except.ok res → ∀ n,
    dictGet? res n = omax (dictGet? ms n) (listMax? (slotsOf ns n))
  | [], ms, res, h, n => by
    simp only [maxslotLoop] at h
    injection h with h
    subst h
    simp [slotsOf, listMax?, omax_none_right]
  | [x], ms, res, h, n => by
    simp [maxslotLoop] at h
  | nm :: st :: rest, ms, res, h, n => by
    simp only [maxslotLoop] at h
    cases hps : pyInt? st with
    | none => rw [hps] at h; simp at h
    | some v =>
      rw [hps] at h
      have ih := maxslotLoop_lookup rest _ res h n
      rw [ih]
      by_cases hnm : nm = n
      · subst hnm
        have hset : dictGet? (match dictGet? ms nm with
            | some old => dictSet ms nm (max old v)
            | none => dictSet ms nm v) nm = omax (dictGet? ms nm) (some v) := by
          cases hms : dictGet? ms nm with
          | some old => simp [hms, dictGet?_dictSet_self, omax]
          | none => simp [hms, dictGet?_dictSet_self, omax]
        rw [hset]
        have hslots : slotsOf (nm :: st :: rest) nm
            = v :: slotsOf rest nm := by
          simp [slotsOf, hps]
        rw [hslots, listMax?_cons, ← omax_assoc]
      · have hset : dictGet? (match dictGet? ms nm with
            | some old => dictSet ms nm (max old v)
            | none => dictSet ms nm v) n = dictGet? ms n := by
          cases hms : dictGet? ms nm with
          | some old => exact dictGet?_dictSet_ne _ _ _ _ (Ne.symm hnm)
          | none => exact dictGet?_dictSet_ne _ _ _ _ (Ne.symm hnm)
        rw [hset]
        have hslots : slotsOf (nm :: st :: rest) n = slotsOf rest n := by
          simp [slotsOf, hnm]
        rw [hslots]

/-- C8 counterexample: the code's node map counts *occurrences* of the
node name among the even-position tokens (`Counter(nodes[::2])`), not
distinct slots: for `exec_host=a/1+a/1` the parsed map is `{a: 2}` while
the spec's "count of distinct slots seen" is `{a: 1}`. -/
theorem exec_host_distinct_slots_cex :
    (Job.new.parse ["1", "S", "j", "exec_host=a/1+a/1"]).1.nodes = [("a", 2)] ∧
    distinctSlotCounts "a/1+a/1" = [("a", 1)] ∧
    (Job.new.parse ["1", "S", "j", "exec_host=a/1+a/1"]).1.nodes
      ≠ distinctSlotCounts "a/1+a/1" := by
  decide

/-- C8 (amended): splitting the exec_host value on `'+'`/`'/'`, discarding
empty segments, and taking alternating node-name / slot tokens, `Job.parse`
assigns (a) `self.nodes`, mapping each node name to the *number of its
occurrences* among the even-position tokens (slot multiplicities counted,
not distinct slots), and (b) — when the slot loop completes without an
exception, starting from an empty prior `maxslot` — `self.maxslot`,
mapping each node to the maximum of the integer values of the slot tokens
that follow its occurrences.  (`Job.parse` assigns exactly
`pyCounter (evens (execHostTokens v))` and the result of
`maxslotLoop` on `execHostTokens v`; see `parseBody` and the
counterexample for the binding to `Job.parse`.) -/
theorem exec_host_grouping_amended (v : String) (n : String) :
    dictGet? (pyCounter (evens (execHostTokens v))) n
      = (if (evens (execHostTokens v)).count n = 0 then none
         else some ((evens (execHostTokens v)).count n)) ∧
    (∀ ms, maxslotLoop [] (execHostTokens v) = Except.ok ms →
      dictGet? ms n = listMax? (slotsOf (execHostTokens v) n)) := by
  constructor
  · have h := dictGet?_counterFrom (evens (execHostTokens v)) [] n
    simpa [pyCounter, dictGet?] using h
  · intro ms hms
    have h := maxslotLoop_lookup (execHostTokens v) [] ms hms n
    simpa [dictGet?, omax] using h

/-- C8 witness: `exec_host=a/1+b/2+a/3` gives occurrence count 2 and
maximum slot 3 for node `a`. -/
theorem exec_host_grouping_amended_witness :
    dictGet? (pyCounter (evens (execHostTokens "a/1+b/2+a/3"))) "a" = some 2 ∧
    dictGet? [("a", (3 : Int)), ("b", 2)] "a"
      = listMax? (slotsOf (execHostTokens "a/1+b/2+a/3") "a") := by
  refine ⟨((exec_host_grouping_amended "a/1+b/2+a/3" "a").1).trans (by decide), ?_⟩
  exact (exec_host_grouping_amended "a/1+b/2+a/3" "a").2 [("a", 3), ("b", 2)] (by rfl)
